import Mathlib

/-!
Verification of the `Signal` type from `src/sig.rs` of the twang repository.

The Rust type `pub struct Signal(f64)` is embedded as a one-field structure
over the real numbers; each method of `impl Signal` is translated below,
keeping the source's names and the exact expression structure.  Rust's `%`
on `f64` (remainder with the sign of the dividend, i.e. truncated division)
is modelled by `Signal.frem`.  A second, coarser model `F64` adds the
non-finite values `NaN` and `±∞` with the `f64::min` / `f64::max` semantics
of the Rust standard library, to settle the claim about `to_mono` on
non-finite inputs.
-/

noncomputable section

/-- Embedding of `pub struct Signal(f64)`: a single real-valued field. -/
structure Signal where
  val : ℝ

namespace Signal

/-- `sine`: `Self((self.0 * PI).cos())`. -/
def sine (s : Signal) : Signal := ⟨Real.cos (s.val * Real.pi)⟩

/-- `triangle`: `Self(self.0.abs() * 2.0 - 1.0)`. -/
def triangle (s : Signal) : Signal := ⟨|s.val| * 2 - 1⟩

/-- Truncation toward zero, as used by Rust's `%` on `f64`. -/
def rtrunc (x : ℝ) : ℤ := if 0 ≤ x then ⌊x⌋ else ⌈x⌉

/-- Rust's `a % b` on `f64`: remainder of truncated division,
`a - b * trunc(a / b)`. -/
def frem (a b : ℝ) : ℝ := a - b * rtrunc (a / b)

/-- `shift`: `match (self.0 + amount.into().0) % 2.0 { x if x < -1.0 =>
Self(x + 2.0), x if x > 1.0 => Self(x - 2.0), x => Self(x) }`. -/
def shift (s a : Signal) : Signal :=
  if frem (s.val + a.val) 2 < -1 then ⟨frem (s.val + a.val) 2 + 2⟩
  else if frem (s.val + a.val) 2 > 1 then ⟨frem (s.val + a.val) 2 - 2⟩
  else ⟨frem (s.val + a.val) 2⟩

/-- `gain`: `Self(self.0 * volume.into().0)`. -/
def gain (s v : Signal) : Signal := ⟨s.val * v.val⟩

/-- `invert`: `Self(-self.0)`. -/
def invert (s : Signal) : Signal := ⟨-s.val⟩

/-- `abs`: `Self(self.0.abs())`. -/
def abs (s : Signal) : Signal := ⟨|s.val|⟩

/-- `min`: `Self(self.0.min(limit.into().0))`. -/
def min (s l : Signal) : Signal := ⟨Min.min s.val l.val⟩

/-- `max`: as written in the source (line 81) this is
`Self(self.0.min(limit.into().0))` — a minimum, not a maximum. -/
def max (s l : Signal) : Signal := ⟨Min.min s.val l.val⟩

/-- `gate`: `let pass: u8 = (self.abs().0 > limit.into().0).into();
let pass: f64 = pass.into(); Self(self.0 * pass)`. -/
def gate (s l : Signal) : Signal :=
  ⟨s.val * (if (s.abs).val > l.val then (1 : ℝ) else 0)⟩

/-- `clip_soft`: `Self((2.0 / (1.0 + (self.0 * -volume).exp()) - 1.0)
/ (2.0 / (1.0 + (-volume).exp()) - 1.0))`. -/
def clip_soft (s v : Signal) : Signal :=
  ⟨(2 / (1 + Real.exp (s.val * -v.val)) - 1)
    / (2 / (1 + Real.exp (-v.val)) - 1)⟩

/-- `clamp`: `self.min(1.0).max(-1.0)`, where `max` is the (buggy)
`Signal::max` above. -/
def clamp (s : Signal) : Signal := (s.min ⟨1⟩).max ⟨-1⟩

/-- `to_mono`: `Mono::new(Ch64::new(self.0.min(1.0).max(-1.0)))`.  Unlike
`clamp`, this calls the genuine `f64::min` and `f64::max`; the resulting
channel sample value is modelled as the underlying real number. -/
def to_mono (s : Signal) : ℝ := Max.max (Min.min s.val 1) (-1)

/-- `impl From<f64> for Signal`: `Signal(signal)`. -/
def from_f64 (r : ℝ) : Signal := ⟨r⟩

/-- `impl From<Signal> for f64`: `signal.0`. -/
def to_f64 (s : Signal) : ℝ := s.val

end Signal

/-- Model of an `f64` value, distinguishing NaN and the two infinities from
finite values, for the claims about non-finite inputs. -/
inductive F64 where
  | nan : F64
  | inf : F64
  | ninf : F64
  | fin (x : ℝ) : F64

namespace F64

/-- Rust's `f64::min`: if one argument is NaN the other is returned;
`-∞` is below and `+∞` above every finite value; otherwise the lesser
argument is returned. -/
def fmin : F64 → F64 → F64
  | nan, b => b
  | a, nan => a
  | ninf, _ => ninf
  | _, ninf => ninf
  | inf, b => b
  | a, inf => a
  | fin x, fin y => fin (Min.min x y)

/-- Rust's `f64::max`: if one argument is NaN the other is returned;
`+∞` is above and `-∞` below every finite value; otherwise the greater
argument is returned. -/
def fmax : F64 → F64 → F64
  | nan, b => b
  | a, nan => a
  | inf, _ => inf
  | _, inf => inf
  | ninf, b => b
  | a, ninf => a
  | fin x, fin y => fin (Max.max x y)

/-- `Signal::to_mono`'s chain `self.0.min(1.0).max(-1.0)` evaluated in the
`F64` model, covering NaN and infinite inputs. -/
def to_mono (a : F64) : F64 := fmax (fmin a (fin 1)) (fin (-1))

end F64

/-- C2: the `max` operation is extensionally identical to the `min`
operation — for every signal `x` and limit `l`, `max x l = min x l`, and
both return the pointwise minimum of the two underlying values. -/
theorem max_is_min (x l : Signal) :
    Signal.max x l = Signal.min x l ∧
      (Signal.max x l).val = Min.min x.val l.val :=
  ⟨rfl, rfl⟩

/-- C7: `gain` is linear in its volume operand — applying `gain` twice with
volumes `v1` and `v2` equals a single `gain` by the product `v1 * v2`. -/
theorem gain_gain (x v1 v2 : Signal) :
    Signal.gain (Signal.gain x v1) v2 = Signal.gain x ⟨v1.val * v2.val⟩ :=
  congrArg Signal.mk (mul_assoc x.val v1.val v2.val)

/-- C9: converting a real number into a `Signal` and extracting the raw
value is the identity, and extracting then reconstructing yields an equal
`Signal` — the numeral-conversion round trip is the identity both ways. -/
theorem from_to_f64_roundtrip :
    (∀ r : ℝ, Signal.to_f64 (Signal.from_f64 r) = r) ∧
      (∀ s : Signal, Signal.from_f64 (Signal.to_f64 s) = s) :=
  ⟨fun _ => rfl, fun _ => rfl⟩

/-- C1 (failing evaluation): the code's `clamp` does not clamp to `[-1, 1]`
and is not the identity on in-range inputs: because `Signal::max` computes
a minimum, `clamp 0 = -1` (not `0`) and `clamp (-2) = -2` (outside
`[-1, 1]`). -/
theorem clamp_violates_spec :
    (Signal.clamp ⟨0⟩).val = -1 ∧ (Signal.clamp ⟨-2⟩).val = -2 := by
  constructor
  · norm_num [Signal.clamp, Signal.max, Signal.min]
  · norm_num [Signal.clamp, Signal.max, Signal.min]

/-- Helper: the remainder of truncated division by 2 lies strictly between
`-2` and `2`. -/
theorem frem_two_bounds (s : ℝ) :
    -2 < Signal.frem s 2 ∧ Signal.frem s 2 < 2 := by
  unfold Signal.frem Signal.rtrunc
  by_cases h : 0 ≤ s / 2
  · rw [if_pos h]
    have h0 : (⌊s / 2⌋ : ℝ) ≤ s / 2 := Int.floor_le _
    have h1 : s / 2 < ⌊s / 2⌋ + 1 := Int.lt_floor_add_one _
    constructor <;> linarith
  · rw [if_neg h]
    have h0 : s / 2 ≤ ⌈s / 2⌉ := Int.le_ceil _
    have h1 : (⌈s / 2⌉ : ℝ) < s / 2 + 1 := Int.ceil_lt_add_one _
    constructor <;> linarith

/-- C3 (counterexample): the result of `shift` is not always in the
half-open interval `(-1, 1]` — at input `-1` with amount `0` the code
returns exactly `-1`, which is outside `(-1, 1]`. -/
theorem shift_escapes_Ioc :
    Signal.shift ⟨-1⟩ ⟨0⟩ = ⟨-1⟩ ∧ (-1 : ℝ) ∉ Set.Ioc (-1 : ℝ) 1 := by
  have hc : ⌈(-(1 / 2) : ℝ)⌉ = 0 := Int.ceil_eq_zero_iff.mpr (by norm_num)
  constructor
  · norm_num [Signal.shift, Signal.frem, Signal.rtrunc, Signal.mk.injEq, hc]
  · simp

/-- C3 (amended): `shift x a` always lands in the closed interval
`[-1, 1]` (computed as `(x + a) mod 2` with the two ±2 corrections), and
`shift 0.9 0.5 = -0.6`, `shift (-0.9) (-0.5) = 0.6`. -/
theorem shift_range_and_examples :
    (∀ x a : Signal, (Signal.shift x a).val ∈ Set.Icc (-1 : ℝ) 1) ∧
      Signal.shift ⟨0.9⟩ ⟨0.5⟩ = ⟨-0.6⟩ ∧
      Signal.shift ⟨-0.9⟩ ⟨-0.5⟩ = ⟨0.6⟩ := by
  refine ⟨fun x a => ?_, ?_, ?_⟩
  · have h := frem_two_bounds (x.val + a.val)
    unfold Signal.shift
    split_ifs with h1 h2 <;> simp only [Set.mem_Icc] <;>
      constructor <;> dsimp only <;> linarith [h.1, h.2]
  · norm_num [Signal.shift, Signal.frem, Signal.rtrunc, Signal.mk.injEq]
  · have hc : ⌈(-(7 / 10) : ℝ)⌉ = 0 := Int.ceil_eq_zero_iff.mpr (by norm_num)
    norm_num [Signal.shift, Signal.frem, Signal.rtrunc, Signal.mk.injEq, hc]

/-- C5: the gate passes the signal through unchanged when `|x| > l`, and
outputs exactly `0` when `|x| ≤ l`; at the boundary `gate 0.5 0.5 = 0`
while `gate 0.50001 0.5 = 0.50001`. -/
theorem gate_spec :
    (∀ x l : Signal,
        (|x.val| > l.val → Signal.gate x l = x) ∧
        (|x.val| ≤ l.val → Signal.gate x l = ⟨0⟩)) ∧
      Signal.gate ⟨0.5⟩ ⟨0.5⟩ = ⟨0⟩ ∧
      Signal.gate ⟨0.50001⟩ ⟨0.5⟩ = ⟨0.50001⟩ := by
  refine ⟨fun x l => ⟨fun h => ?_, fun h => ?_⟩, ?_, ?_⟩
  · simp only [Signal.gate, Signal.abs]
    rw [if_pos h, mul_one]
  · simp only [Signal.gate, Signal.abs]
    rw [if_neg (not_lt.mpr h), mul_zero]
  · norm_num [Signal.gate, Signal.abs, Signal.mk.injEq, abs_of_pos]
  · norm_num [Signal.gate, Signal.abs, Signal.mk.injEq, abs_of_pos]

/-- C5 (witness): at `x = 1`, `l = 1/2` the open-gate hypothesis holds and
the gate passes the signal through unchanged. -/
theorem gate_spec_witness :
    |(1 : ℝ)| > (1 / 2 : ℝ) ∧ Signal.gate ⟨1⟩ ⟨1 / 2⟩ = ⟨1⟩ :=
  ⟨by norm_num, (gate_spec.1 ⟨1⟩ ⟨1 / 2⟩).1 (by norm_num)⟩

/-- C6: `clip_soft` computes
`(2 / (1 + exp (-(x·k))) - 1) / (2 / (1 + exp (-k)) - 1)`, and for every
positive `k`, `clip_soft 1 k = 1` and `clip_soft 0 k = 0`. -/
theorem clip_soft_spec :
    (∀ x k : Signal, Signal.clip_soft x k =
        ⟨(2 / (1 + Real.exp (-(x.val * k.val))) - 1)
          / (2 / (1 + Real.exp (-k.val)) - 1)⟩) ∧
      ∀ k : ℝ, 0 < k →
        Signal.clip_soft ⟨1⟩ ⟨k⟩ = ⟨1⟩ ∧ Signal.clip_soft ⟨0⟩ ⟨k⟩ = ⟨0⟩ := by
  constructor
  · intro x k
    unfold Signal.clip_soft
    rw [mul_neg]
  · intro k hk
    have ht0 : 0 < Real.exp (-k) := Real.exp_pos _
    have ht1 : Real.exp (-k) < 1 := Real.exp_lt_one_iff.mpr (by linarith)
    have h1t : (0 : ℝ) < 1 + Real.exp (-k) := by linarith
    have hD : 0 < 2 / (1 + Real.exp (-k)) - 1 := by
      rw [lt_sub_iff_add_lt, zero_add, lt_div_iff₀ h1t]
      linarith
    constructor
    · unfold Signal.clip_soft
      simp only [one_mul]
      exact congrArg Signal.mk (div_self hD.ne')
    · unfold Signal.clip_soft
      simp only [zero_mul, neg_zero, Real.exp_zero]
      norm_num

/-- C6 (witness): at `k = 1 > 0` the normalization invariant holds:
`clip_soft 1 1 = 1` and `clip_soft 0 1 = 0`. -/
theorem clip_soft_spec_witness :
    0 < (1 : ℝ) ∧ Signal.clip_soft ⟨1⟩ ⟨1⟩ = ⟨1⟩ ∧
      Signal.clip_soft ⟨0⟩ ⟨1⟩ = ⟨0⟩ :=
  ⟨one_pos, (clip_soft_spec.2 1 one_pos).1, (clip_soft_spec.2 1 one_pos).2⟩

/-- C8: `sine x` equals `cos (x·π)`, and for an input phase in `[-1, 1]`
the result stays in `[-1, 1]`. -/
theorem sine_spec (x : Signal) :
    Signal.sine x = ⟨Real.cos (x.val * Real.pi)⟩ ∧
      (x.val ∈ Set.Icc (-1 : ℝ) 1 →
        (Signal.sine x).val ∈ Set.Icc (-1 : ℝ) 1) :=
  ⟨rfl, fun _ => ⟨Real.neg_one_le_cos _, Real.cos_le_one _⟩⟩

/-- C8 (witness): at phase `0` (which is in `[-1, 1]`) the sine output is
in `[-1, 1]`. -/
theorem sine_spec_witness :
    (Signal.mk 0).val ∈ Set.Icc (-1 : ℝ) 1 ∧
      (Signal.sine ⟨0⟩).val ∈ Set.Icc (-1 : ℝ) 1 :=
  ⟨by norm_num, (sine_spec ⟨0⟩).2 (by norm_num)⟩

/-- C10: for every `F64` input — finite, infinite or NaN — the sample
value produced by the `to_mono` min/max chain is a finite value in
`[-1, 1]`; in particular `to_mono NaN` is the finite bound `1`. -/
theorem to_mono_total_range :
    (∀ a : F64, ∃ r : ℝ, F64.to_mono a = F64.fin r ∧ -1 ≤ r ∧ r ≤ 1) ∧
      F64.to_mono F64.nan = F64.fin 1 := by
  constructor
  · intro a
    cases a with
    | nan => exact ⟨Max.max 1 (-1), rfl, by norm_num, by norm_num⟩
    | inf => exact ⟨Max.max 1 (-1), rfl, by norm_num, by norm_num⟩
    | ninf => exact ⟨-1, rfl, le_refl _, by norm_num⟩
    | fin x =>
        refine ⟨Max.max (Min.min x 1) (-1), rfl, le_max_right _ _, ?_⟩
        exact max_le (min_le_right _ _) (by norm_num)
  · show F64.fin (Max.max 1 (-1)) = F64.fin 1
    norm_num

/-- C4 (failing evaluation): `to_mono` and `clamp` disagree at `0`:
`to_mono 0 = 0` (a genuine clamp, via `f64::min`/`f64::max`) while the
code's `clamp 0` yields `-1` because of the `Signal::max` defect. -/
theorem to_mono_ne_clamp_at_zero :
    Signal.to_mono ⟨0⟩ = 0 ∧ (Signal.clamp ⟨0⟩).val = -1 := by
  constructor
  · norm_num [Signal.to_mono]
  · norm_num [Signal.clamp, Signal.max, Signal.min]
